import Mathlib

/-!
Shallow embedding of `src/eventlog.rs` (tracing-layer-win-eventlog).

Text is modelled as `List Char`.  Machine integers are `Nat`/`Int`, with the
source's explicit range comparisons reproduced verbatim (`value <= u32::MAX`,
`value >= 0`).  The `HashMap<String, String>` field store is modelled as an
association list whose `insert` replaces any existing binding of the key.
The native `ReportEventW` call is an oracle parameter of the writer.
-/

namespace Evlog

/-- Character list of a Lean string literal; all text in this development is
modelled as `List Char`. -/
def chars (s : String) : List Char := s.data

/-- Newline character. -/
def nlc : Char := Char.ofNat 10

/-- Backslash character. -/
def bsc : Char := Char.ofNat 92

/-- Double-quote character. -/
def quoteC : Char := Char.ofNat 34

/-- Escaping of one character inside a quoted string, as performed by Rust's
`std::fmt::Debug` for `str`/`String` (`char::escape_debug`): backslash and
quote are backslash-escaped; newline, tab, carriage return and NUL become
the two-character sequences `\n`, `\t`, `\r`, `\0`; the remaining ASCII
control characters and DEL become `\u` followed by the code point in
lowercase hex between braces; printable ASCII is unchanged.  For characters
above the ASCII range `escape_debug` consults Unicode printability and
grapheme-extension tables that are not reproduced here: this model
conservatively escapes all of them (real `escape_debug` passes printable
non-ASCII through), and every theorem below whose conclusion depends on a
character passing through unchanged restricts that character to printable
ASCII, where the model is exact. -/
def escChar (c : Char) : List Char :=
  if c = bsc then [bsc, bsc]
  else if c = quoteC then [bsc, quoteC]
  else if c = nlc then [bsc, 'n']
  else if c = Char.ofNat 9 then [bsc, 't']
  else if c = Char.ofNat 13 then [bsc, 'r']
  else if c = Char.ofNat 0 then [bsc, '0']
  else if 32 ≤ c.toNat ∧ c.toNat ≤ 126 then [c]
  else [bsc, 'u', Char.ofNat 123] ++ Nat.toDigits 16 c.toNat ++ [Char.ofNat 125]

/-- Per-character escaping of a whole string body. -/
def escList : List Char → List Char
  | [] => []
  | c :: cs => escChar c ++ escList cs

/-- Rust `format!("{:?}", s)` for a string value: surrounding quotes plus
per-character escaping. -/
def strDebug (s : List Char) : List Char := quoteC :: (escList s ++ [quoteC])

/-- Rust `format!("{:?}", v)` for an unsigned integer: decimal digits. -/
def natDebug (v : Nat) : List Char := (toString v).data

/-- Rust `format!("{:?}", v)` for a signed integer: decimal digits with an
optional leading minus sign. -/
def intDebug (v : Int) : List Char := (toString v).data

/-- Rust `format!("{:?}", b)` for a boolean. -/
def boolDebug (b : Bool) : List Char := if b then chars "true" else chars "false"

/-- Rust `s.replace(r"\\", r"\")` as used at eventlog.rs line 156: leftmost,
non-overlapping two-backslash sequences collapse to a single backslash. -/
def collapseBS : List Char → List Char
  | [] => []
  | [c] => [c]
  | c1 :: c2 :: rest =>
    if c1 = bsc ∧ c2 = bsc then bsc :: collapseBS rest
    else c1 :: collapseBS (c2 :: rest)

/-- Rust `str::to_lowercase`; the ASCII mapping suffices for the field names
occurring here. -/
def lowerStr (s : List Char) : List Char := s.map Char.toLower

/-- Remove all bindings of a key from the association list. -/
def removeKey : List (List Char × List Char) → List Char → List (List Char × List Char)
  | [], _ => []
  | p :: rest, k => if p.1 = k then removeKey rest k else p :: removeKey rest k

/-- `HashMap::insert`: the new binding replaces any existing binding of the
key (the iteration order of the map is unspecified in the source; this model
fixes one order, which no claim depends on). -/
def insertKV (m : List (List Char × List Char)) (k v : List Char) :
    List (List Char × List Char) :=
  removeKey m k ++ [(k, v)]

/-- `HashMap::get`-style lookup in the association list. -/
def lookupKV : List (List Char × List Char) → List Char → Option (List Char)
  | [], _ => none
  | p :: rest, k => if p.1 = k then some p.2 else lookupKV rest k

/-- tracing's severity levels, `trace < debug < info < warn < error`. -/
inductive Level where
  | trace
  | debug
  | info
  | warn
  | error

/-- Win32 `EVENTLOG_ERROR_TYPE`. -/
def EVENTLOG_ERROR_TYPE : Nat := 1

/-- Win32 `EVENTLOG_WARNING_TYPE`. -/
def EVENTLOG_WARNING_TYPE : Nat := 2

/-- Win32 `EVENTLOG_INFORMATION_TYPE`. -/
def EVENTLOG_INFORMATION_TYPE : Nat := 4

/-- The severity-to-native-category match at the top of `write_to_event_log`
(eventlog.rs lines 32-36). -/
def eventType : Level → Nat
  | Level.error => EVENTLOG_ERROR_TYPE
  | Level.warn => EVENTLOG_WARNING_TYPE
  | Level.info => EVENTLOG_INFORMATION_TYPE
  | Level.debug => EVENTLOG_INFORMATION_TYPE
  | Level.trace => EVENTLOG_INFORMATION_TYPE

/-- Opaque Win32 error produced by a failed `ReportEventW` call. -/
structure WinError where
  code : Nat

/-- The text printed by `eprintln!("Failed to write to event log: {:?}", e)`
(the debug form of the error is abstracted to its numeric code). -/
def failLine (e : WinError) : List Char :=
  chars "Failed to write to event log: " ++ natDebug e.code

/-- `write_to_event_log` (eventlog.rs lines 31-53).  `report` is the native
`ReportEventW` call, taking the event type, the event id and the message
text.  The `Except` result models what the function could raise to its
caller; the `ok` payload is the list of stderr diagnostic lines.  The source
matches on the native result, prints a diagnostic on failure, and returns
`()` on every path. -/
def write_to_event_log (report : Nat → Nat → List Char → Except WinError Unit)
    (event_id : Nat) (level : Level) (message : List Char) :
    Except WinError (List (List Char)) :=
  match report (eventType level) event_id message with
  | Except.ok _ => Except.ok []
  | Except.error e => Except.ok [failLine e]

/-- The `EventVisitor` struct (eventlog.rs lines 131-140).  The raw `HANDLE`
field is an opaque native pointer that plays no part in the visitor logic;
it is represented by the `report` oracle at write time. -/
structure EventVisitor where
  default_id : Option Nat
  id : Option Nat
  log_level : Level
  message : Option (List Char)
  parents : Option (List Char)
  fields : List (List Char × List Char)

/-- `u32::MAX`. -/
def u32MAX : Nat := 4294967295

/-- `record_debug` (eventlog.rs lines 182-189): a field named exactly
"message" populates the primary message slot, every other field is stored in
the extras map under its name. -/
def record_debug (st : EventVisitor) (name rendered : List Char) : EventVisitor :=
  if name = chars "message" then { st with message := some rendered }
  else { st with fields := insertKV st.fields name rendered }

/-- `record_u64` (eventlog.rs lines 164-171). -/
def record_u64 (st : EventVisitor) (name : List Char) (value : Nat) : EventVisitor :=
  if lowerStr name = chars "id" ∧ value ≤ u32MAX then { st with id := some value }
  else record_debug st name (natDebug value)

/-- `record_i64` (eventlog.rs lines 173-180). -/
def record_i64 (st : EventVisitor) (name : List Char) (value : Int) : EventVisitor :=
  if lowerStr name = chars "id" ∧ 0 ≤ value ∧ value ≤ (u32MAX : Int) then
    { st with id := some value.toNat }
  else record_debug st name (intDebug value)

/-- `record_u128` (eventlog.rs lines 199-201): unconditionally generic. -/
def record_u128 (st : EventVisitor) (name : List Char) (value : Nat) : EventVisitor :=
  record_debug st name (natDebug value)

/-- `record_i128` (eventlog.rs lines 195-197): unconditionally generic. -/
def record_i128 (st : EventVisitor) (name : List Char) (value : Int) : EventVisitor :=
  record_debug st name (intDebug value)

/-- `record_bool` (eventlog.rs lines 203-205). -/
def record_bool (st : EventVisitor) (name : List Char) (value : Bool) : EventVisitor :=
  record_debug st name (boolDebug value)

/-- `record_str` (eventlog.rs lines 207-209): the `&str` value reaches
`record_debug` behind a reference, so its stored rendering is the quoted,
escaped string-debug form. -/
def record_str (st : EventVisitor) (name value : List Char) : EventVisitor :=
  record_debug st name (strDebug value)

/-- One call of tracing's field-visitation protocol: which `record_*` method
is invoked for a field, with the field's name and typed value.  `dbgf`
carries the debug-rendered text of an arbitrary value reaching `record_debug`
directly (e.g. the `message` field's `fmt::Arguments`, or a float via
`record_f64`, which forwards to `record_debug` like the other generic
paths). -/
inductive FieldVisit where
  | u64f (name : List Char) (value : Nat)
  | i64f (name : List Char) (value : Int)
  | u128f (name : List Char) (value : Nat)
  | i128f (name : List Char) (value : Int)
  | boolf (name : List Char) (value : Bool)
  | strf (name value : List Char)
  | dbgf (name rendered : List Char)

/-- Dispatch of one visitation call to the corresponding `record_*` method. -/
def applyVisit (st : EventVisitor) : FieldVisit → EventVisitor
  | FieldVisit.u64f n v => record_u64 st n v
  | FieldVisit.i64f n v => record_i64 st n v
  | FieldVisit.u128f n v => record_u128 st n v
  | FieldVisit.i128f n v => record_i128 st n v
  | FieldVisit.boolf n v => record_bool st n v
  | FieldVisit.strf n v => record_str st n v
  | FieldVisit.dbgf n r => record_debug st n r

/-- `event.record(&mut visitor)`: the visitor folded over the event's field
visitations in order. -/
def runVisitor (st : EventVisitor) (fs : List FieldVisit) : EventVisitor :=
  fs.foldl applyVisit st

/-- The visitor as built at the top of `on_event` (eventlog.rs lines 91-99). -/
def initVisitor (default_id : Option Nat) (log_level : Level) : EventVisitor :=
  { default_id := default_id, id := none, log_level := log_level,
    message := none, parents := none, fields := [] }

/-- Ancestry resolution of `on_event` (eventlog.rs lines 103-125).  The span
context is `none` when there is no current span; otherwise it is the current
span's name paired with the names of its strict ancestors in the order the
`parent()` walk visits them (innermost parent first, root last).  The code
collects the ancestor names in `parents`, keeps the walk's final span name in
`span`, and uses `span` only when `parents` is empty. -/
def computeParents (chain : Option (List Char × List (List Char))) :
    Option (List Char) :=
  let parents : List (List Char) :=
    match chain with
    | none => []
    | some c => c.2
  let span : Option (List Char) :=
    match chain with
    | none => none
    | some c => some (c.2.getLastD c.1)
  if parents = [] then span
  else some (List.intercalate (chars " / ") parents.reverse)

/-- The `{m}\n\n` primary-message block of `EventVisitor::log`
(eventlog.rs lines 148-150). -/
def msgBlock : Option (List Char) → List Char
  | none => []
  | some m => m ++ [nlc, nlc]

/-- The `source: {m}\n` ancestry block (eventlog.rs lines 152-154). -/
def parentsBlock : Option (List Char) → List Char
  | none => []
  | some p => chars "source: " ++ (p ++ [nlc])

/-- One `"{}: {:?}\n"` extra-field line (eventlog.rs line 156): the stored
text first has its double backslashes collapsed by `replace`, and the result
is then formatted with `{:?}` again (quoted and re-escaped). -/
def fieldLine (k v : List Char) : List Char :=
  k ++ chars ": " ++ (strDebug (collapseBS v) ++ [nlc])

/-- The `for_each` loop appending one line per stored extra field. -/
def fieldLines (fs : List (List Char × List Char)) : List Char :=
  fs.foldl (fun acc p => acc ++ fieldLine p.1 p.2) []

/-- The full message assembled by `EventVisitor::log`
(eventlog.rs lines 146-157). -/
def logMsg (st : EventVisitor) : List Char :=
  msgBlock st.message ++ parentsBlock st.parents ++ fieldLines st.fields

/-- `self.id.unwrap_or(self.default_id.unwrap_or_default())`
(eventlog.rs line 144). -/
def resolveId (st : EventVisitor) : Nat :=
  st.id.getD (st.default_id.getD 0)

/-- `on_event` up to the `visitor.log()` call: build a fresh visitor, record
the event's fields, then fill in the ancestry trail. -/
def onEvent (default_id : Option Nat) (lvl : Level) (fs : List FieldVisit)
    (chain : Option (List Char × List (List Char))) : EventVisitor :=
  let v := runVisitor (initVisitor default_id lvl) fs
  { v with parents := computeParents chain }

/-- Name of the field a visitation call carries. -/
def visitName : FieldVisit → List Char
  | FieldVisit.u64f n _ => n
  | FieldVisit.i64f n _ => n
  | FieldVisit.u128f n _ => n
  | FieldVisit.i128f n _ => n
  | FieldVisit.boolf n _ => n
  | FieldVisit.strf n _ => n
  | FieldVisit.dbgf n _ => n

/-- Debug rendering that a visitation funnels into `record_debug` on its
generic path. -/
def renderOf : FieldVisit → List Char
  | FieldVisit.u64f _ v => natDebug v
  | FieldVisit.i64f _ v => intDebug v
  | FieldVisit.u128f _ v => natDebug v
  | FieldVisit.i128f _ v => intDebug v
  | FieldVisit.boolf _ v => boolDebug v
  | FieldVisit.strf _ v => strDebug v
  | FieldVisit.dbgf _ r => r

/-- Value a visitation stores into the reserved identifier slot, if any:
exactly the two 64-bit integer fast paths with an id-cased name and an
in-range value (mirrors the guards of `record_u64` / `record_i64`). -/
def idCandidate : FieldVisit → Option Nat
  | FieldVisit.u64f n v =>
    if lowerStr n = chars "id" ∧ v ≤ u32MAX then some v else none
  | FieldVisit.i64f n v =>
    if lowerStr n = chars "id" ∧ 0 ≤ v ∧ v ≤ (u32MAX : Int) then some v.toNat else none
  | _ => none

/-- Identifier retained after a visitation sequence: the value of the LAST
in-range reserved-id field, if any. -/
def lastIdCandidate : List FieldVisit → Option Nat
  | [] => none
  | f :: fs => (lastIdCandidate fs).or (idCandidate f)

/-- Primary-message text retained after a visitation sequence: the rendering
of the LAST field named exactly "message", if any. -/
def lastMessageRender : List FieldVisit → Option (List Char)
  | [] => none
  | f :: fs =>
    (lastMessageRender fs).or
      (if visitName f = chars "message" then some (renderOf f) else none)

/-- Bool test: `t` is a prefix of `s`. -/
def leadsWith : List Char → List Char → Bool
  | [], _ => true
  | _ :: _, [] => false
  | t :: ts, c :: cs => (t == c) && leadsWith ts cs

/-- Bool test: `t` occurs contiguously somewhere inside `s`. -/
def containsSeq (t : List Char) : List Char → Bool
  | [] => leadsWith t []
  | c :: cs => leadsWith t (c :: cs) || containsSeq t cs

/-- Scan for an occurrence of `tag` at a line start (start of the text or
right after a newline); the Bool flag records whether the current position
is a line start. -/
def hasLineFrom (tag : List Char) : Bool → List Char → Bool
  | st, [] => st && leadsWith tag []
  | st, c :: cs => (st && leadsWith tag (c :: cs)) || hasLineFrom tag (c == nlc) cs

/-- `s` has a line starting with `tag`. -/
def hasLineStart (tag s : List Char) : Bool := hasLineFrom tag true s

/-- Last character of the list is a newline. -/
def endsNL : List Char → Bool
  | [] => false
  | [c] => c == nlc
  | _ :: c :: cs => endsNL (c :: cs)

/-- The prefix of the ancestry line emitted by the renderer. -/
def srcTag : List Char := chars "source:"

/-- Span context for an active ancestry chain root → mid → leaf with leaf the
current span: the `parent()` walk from leaf visits mid, then root. -/
def c1Chain : Option (List Char × List (List Char)) :=
  some (chars "leaf", [chars "mid", chars "root"])

/-- Field visitations of the C3 scenario `{message: "started", id: 42,
port: 8080}`: the message arrives pre-rendered as `fmt::Arguments`, integer
literals arrive through the signed 64-bit path. -/
def c3Fields : List FieldVisit :=
  [FieldVisit.dbgf (chars "message") (chars "started"),
   FieldVisit.i64f (chars "id") 42,
   FieldVisit.i64f (chars "port") 8080]



/-! ### Helper lemmas about `Option.or` and the visitor state -/

theorem optOr_assoc {α : Type} (a b c : Option α) : (a.or b).or c = a.or (b.or c) := by
  cases a <;> rfl

theorem optOr_none {α : Type} (a : Option α) : a.or none = a := by
  cases a <;> rfl

theorem optOr_some {α : Type} (a : α) (b : Option α) : (some a).or b = some a := rfl

theorem optOr_nil {α : Type} (b : Option α) : (Option.none).or b = b := rfl

theorem record_debug_id (st : EventVisitor) (n r : List Char) :
    (record_debug st n r).id = st.id := by
  unfold record_debug; split <;> rfl

theorem record_debug_default (st : EventVisitor) (n r : List Char) :
    (record_debug st n r).default_id = st.default_id := by
  unfold record_debug; split <;> rfl

theorem applyVisit_id (st : EventVisitor) (f : FieldVisit) :
    (applyVisit st f).id = (idCandidate f).or st.id := by
  cases f with
  | u64f n v =>
    by_cases h : lowerStr n = chars "id" ∧ v ≤ u32MAX
    · simp [applyVisit, record_u64, idCandidate, h, optOr_some]
    · simp [applyVisit, record_u64, idCandidate, h, record_debug_id, optOr_nil]
  | i64f n v =>
    by_cases h : lowerStr n = chars "id" ∧ 0 ≤ v ∧ v ≤ (u32MAX : Int)
    · simp [applyVisit, record_i64, idCandidate, h, optOr_some]
    · simp [applyVisit, record_i64, idCandidate, h, record_debug_id, optOr_nil]
  | u128f n v => simp [applyVisit, record_u128, idCandidate, record_debug_id, optOr_nil]
  | i128f n v => simp [applyVisit, record_i128, idCandidate, record_debug_id, optOr_nil]
  | boolf n v => simp [applyVisit, record_bool, idCandidate, record_debug_id, optOr_nil]
  | strf n v => simp [applyVisit, record_str, idCandidate, record_debug_id, optOr_nil]
  | dbgf n r => simp [applyVisit, idCandidate, record_debug_id, optOr_nil]

theorem applyVisit_default (st : EventVisitor) (f : FieldVisit) :
    (applyVisit st f).default_id = st.default_id := by
  cases f with
  | u64f n v =>
    show (record_u64 st n v).default_id = st.default_id
    unfold record_u64; split
    · rfl
    · exact record_debug_default _ _ _
  | i64f n v =>
    show (record_i64 st n v).default_id = st.default_id
    unfold record_i64; split
    · rfl
    · exact record_debug_default _ _ _
  | u128f n v => exact record_debug_default _ _ _
  | i128f n v => exact record_debug_default _ _ _
  | boolf n v => exact record_debug_default _ _ _
  | strf n v => exact record_debug_default _ _ _
  | dbgf n r => exact record_debug_default _ _ _

theorem runVisitor_id : ∀ (fs : List FieldVisit) (st : EventVisitor),
    (runVisitor st fs).id = (lastIdCandidate fs).or st.id
  | [], st => rfl
  | f :: fs, st => by
    show (runVisitor (applyVisit st f) fs).id = _
    rw [runVisitor_id fs (applyVisit st f), applyVisit_id, lastIdCandidate, optOr_assoc]

theorem runVisitor_default : ∀ (fs : List FieldVisit) (st : EventVisitor),
    (runVisitor st fs).default_id = st.default_id
  | [], st => rfl
  | f :: fs, st => by
    show (runVisitor (applyVisit st f) fs).default_id = _
    rw [runVisitor_default fs (applyVisit st f), applyVisit_default]

theorem ne_message_of_id (n : List Char) (h : lowerStr n = chars "id") :
    n ≠ chars "message" := by
  intro e
  rw [e] at h
  exact absurd h (by decide)

theorem record_debug_message (st : EventVisitor) (n r : List Char) :
    (record_debug st n r).message =
      (if n = chars "message" then some r else none).or st.message := by
  by_cases h : n = chars "message" <;> simp [record_debug, h, optOr_some, optOr_nil]

theorem applyVisit_message (st : EventVisitor) (f : FieldVisit) :
    (applyVisit st f).message =
      (if visitName f = chars "message" then some (renderOf f) else none).or st.message := by
  cases f with
  | u64f n v =>
    by_cases h : lowerStr n = chars "id" ∧ v ≤ u32MAX
    · have hn : n ≠ chars "message" := ne_message_of_id n h.1
      simp [applyVisit, record_u64, h, visitName, hn, optOr_nil]
    · simp [applyVisit, record_u64, h, record_debug_message, visitName, renderOf]
  | i64f n v =>
    by_cases h : lowerStr n = chars "id" ∧ 0 ≤ v ∧ v ≤ (u32MAX : Int)
    · have hn : n ≠ chars "message" := ne_message_of_id n h.1
      simp [applyVisit, record_i64, h, visitName, hn, optOr_nil]
    · simp [applyVisit, record_i64, h, record_debug_message, visitName, renderOf]
  | u128f n v => simp [applyVisit, record_u128, record_debug_message, visitName, renderOf]
  | i128f n v => simp [applyVisit, record_i128, record_debug_message, visitName, renderOf]
  | boolf n v => simp [applyVisit, record_bool, record_debug_message, visitName, renderOf]
  | strf n v => simp [applyVisit, record_str, record_debug_message, visitName, renderOf]
  | dbgf n r => simp [applyVisit, record_debug_message, visitName, renderOf]

theorem runVisitor_message : ∀ (fs : List FieldVisit) (st : EventVisitor),
    (runVisitor st fs).message = (lastMessageRender fs).or st.message
  | [], st => rfl
  | f :: fs, st => by
    show (runVisitor (applyVisit st f) fs).message = _
    rw [runVisitor_message fs (applyVisit st f), applyVisit_message, lastMessageRender,
      optOr_assoc]

/-! ### Lookup / insert lemmas for the field store -/

theorem lookupKV_insert_self : ∀ (m : List (List Char × List Char)) (k v : List Char),
    lookupKV (insertKV m k v) k = some v
  | [], k, v => by simp [insertKV, removeKey, lookupKV]
  | p :: rest, k, v => by
    by_cases h : p.1 = k
    · show lookupKV (removeKey (p :: rest) k ++ [(k, v)]) k = some v
      rw [removeKey, if_pos h]
      exact lookupKV_insert_self rest k v
    · show lookupKV (removeKey (p :: rest) k ++ [(k, v)]) k = some v
      rw [removeKey, if_neg h, List.cons_append, lookupKV, if_neg h]
      exact lookupKV_insert_self rest k v

theorem lookupKV_insert_ne : ∀ (m : List (List Char × List Char)) (k v k' : List Char),
    k' ≠ k → lookupKV (insertKV m k v) k' = lookupKV m k'
  | [], k, v, k', hne => by
    have h : ¬ k = k' := fun e => hne e.symm
    simp [insertKV, removeKey, lookupKV, h]
  | p :: rest, k, v, k', hne => by
    by_cases h : p.1 = k
    · show lookupKV (removeKey (p :: rest) k ++ [(k, v)]) k' = _
      rw [removeKey, if_pos h, lookupKV, if_neg (fun e : p.1 = k' => hne (e.symm.trans h))]
      exact lookupKV_insert_ne rest k v k' hne
    · show lookupKV (removeKey (p :: rest) k ++ [(k, v)]) k' = _
      rw [removeKey, if_neg h, List.cons_append, lookupKV, lookupKV]
      by_cases hp : p.1 = k'
      · rw [if_pos hp, if_pos hp]
      · rw [if_neg hp, if_neg hp]
        exact lookupKV_insert_ne rest k v k' hne

theorem record_debug_lookup_msg (st : EventVisitor) (n r : List Char) :
    lookupKV (record_debug st n r).fields (chars "message") =
      lookupKV st.fields (chars "message") := by
  by_cases h : n = chars "message"
  · simp [record_debug, h]
  · simp [record_debug, h,
      lookupKV_insert_ne st.fields n r (chars "message") (fun e => h e.symm)]

theorem applyVisit_lookup_msg (st : EventVisitor) (f : FieldVisit) :
    lookupKV (applyVisit st f).fields (chars "message") =
      lookupKV st.fields (chars "message") := by
  cases f with
  | u64f n v =>
    show lookupKV (record_u64 st n v).fields _ = _
    unfold record_u64; split
    · rfl
    · exact record_debug_lookup_msg _ _ _
  | i64f n v =>
    show lookupKV (record_i64 st n v).fields _ = _
    unfold record_i64; split
    · rfl
    · exact record_debug_lookup_msg _ _ _
  | u128f n v => exact record_debug_lookup_msg _ _ _
  | i128f n v => exact record_debug_lookup_msg _ _ _
  | boolf n v => exact record_debug_lookup_msg _ _ _
  | strf n v => exact record_debug_lookup_msg _ _ _
  | dbgf n r => exact record_debug_lookup_msg _ _ _

theorem runVisitor_lookup_msg : ∀ (fs : List FieldVisit) (st : EventVisitor),
    lookupKV (runVisitor st fs).fields (chars "message") =
      lookupKV st.fields (chars "message")
  | [], st => rfl
  | f :: fs, st => by
    show lookupKV (runVisitor (applyVisit st f) fs).fields _ = _
    rw [runVisitor_lookup_msg fs (applyVisit st f), applyVisit_lookup_msg]



/-! ### Substring and line-start machinery -/

theorem leadsWith_nil_false (t : List Char) (h : t ≠ []) : leadsWith t [] = false := by
  cases t with
  | nil => exact absurd rfl h
  | cons a ts => rfl

theorem leadsWith_iff : ∀ (t s : List Char), leadsWith t s = true ↔ ∃ r, s = t ++ r
  | [], s => ⟨fun _ => ⟨s, rfl⟩, fun _ => rfl⟩
  | a :: ts, [] => by
    constructor
    · intro h; exact absurd h (by simp [leadsWith])
    · rintro ⟨r, hr⟩; exact absurd hr (by simp)
  | a :: ts, c :: cs => by
    constructor
    · intro h
      have h12 := (Bool.and_eq_true _ _).mp h
      have h1 : a = c := eq_of_beq h12.1
      obtain ⟨r, hr⟩ := (leadsWith_iff ts cs).mp h12.2
      exact ⟨r, by rw [hr, h1]; rfl⟩
    · rintro ⟨r, hr⟩
      rw [List.cons_append] at hr
      injection hr with h1 h2
      show ((a == c) && leadsWith ts cs) = true
      rw [h2, ← h1, beq_self_eq_true, (leadsWith_iff ts (ts ++ r)).mpr ⟨r, rfl⟩,
        Bool.and_self]

theorem containsSeq_iff : ∀ (t s : List Char),
    containsSeq t s = true ↔ ∃ u v, s = u ++ t ++ v
  | t, [] => by
    show leadsWith t [] = true ↔ _
    rw [leadsWith_iff]
    constructor
    · rintro ⟨r, hr⟩
      have h := List.append_eq_nil.mp hr.symm
      exact ⟨[], [], by simp [h.1]⟩
    · rintro ⟨u, v, huv⟩
      have h3 := List.append_eq_nil.mp huv.symm
      have h4 := List.append_eq_nil.mp h3.1
      exact ⟨[], by simp [h4.2]⟩
  | t, c :: cs => by
    show (leadsWith t (c :: cs) || containsSeq t cs) = true ↔ _
    rw [Bool.or_eq_true, leadsWith_iff, containsSeq_iff t cs]
    constructor
    · rintro (⟨r, hr⟩ | ⟨u, v, huv⟩)
      · exact ⟨[], r, by simp [hr]⟩
      · exact ⟨c :: u, v, by simp [huv]⟩
    · rintro ⟨u, v, huv⟩
      cases u with
      | nil => exact Or.inl ⟨v, by simpa using huv⟩
      | cons b u2 =>
        rw [List.cons_append, List.cons_append] at huv
        injection huv with h1 h2
        exact Or.inr ⟨u2, v, h2⟩

theorem endsNL_cons (c : Char) (rest : List Char) (h : rest ≠ []) :
    endsNL (c :: rest) = endsNL rest := by
  cases rest with
  | nil => exact absurd rfl h
  | cons d ds => rfl

theorem endsNL_append2 : ∀ m : List Char, endsNL (m ++ [nlc, nlc]) = true
  | [] => by decide
  | c :: m => by
    have hne : m ++ [nlc, nlc] ≠ [] := by simp
    rw [List.cons_append, endsNL_cons c (m ++ [nlc, nlc]) hne]
    exact endsNL_append2 m

theorem msgBlock_endsNL (mo : Option (List Char)) (h : msgBlock mo ≠ []) :
    endsNL (msgBlock mo) = true := by
  cases mo with
  | none => exact absurd rfl h
  | some m => exact endsNL_append2 m

theorem leadsWith_append_of_ends_nl :
    ∀ (tag x : List Char), (y : List Char) → nlc ∉ tag → endsNL x = true →
      leadsWith tag (x ++ y) = leadsWith tag x
  | [], x, y, _, _ => rfl
  | t :: ts, [], y, _, hend => by simp [endsNL] at hend
  | t :: ts, [c], y, hnl, hend => by
    have hc : c = nlc := eq_of_beq (by simpa [endsNL] using hend)
    have ht : (t == c) = false := by
      apply beq_eq_false_iff_ne.mpr
      intro e
      apply hnl
      rw [e, hc]
      exact List.mem_cons_self _ _
    show ((t == c) && leadsWith ts ([] ++ y)) = ((t == c) && leadsWith ts [])
    rw [ht]
    simp
  | t :: ts, c :: d :: ds, y, hnl, hend => by
    have hend2 : endsNL (d :: ds) = true := by simpa [endsNL] using hend
    have ih := leadsWith_append_of_ends_nl ts (d :: ds) y
      (fun hm => hnl (List.mem_cons_of_mem _ hm)) hend2
    show ((t == c) && leadsWith ts ((d :: ds) ++ y)) = ((t == c) && leadsWith ts (d :: ds))
    rw [ih]

theorem hasLineFrom_append (tag : List Char) (hnl : nlc ∉ tag) (hne : tag ≠ []) :
    ∀ (x y : List Char) (st : Bool), (x = [] → st = true) → (x ≠ [] → endsNL x = true) →
      hasLineFrom tag st (x ++ y) =
        (hasLineFrom tag st x || hasLineFrom tag true y)
  | [], y, st, h1, _ => by
    have hst : st = true := h1 rfl
    subst hst
    show hasLineFrom tag true y = ((true && leadsWith tag []) || hasLineFrom tag true y)
    rw [leadsWith_nil_false tag hne]
    simp
  | c :: cs, y, st, _, h2 => by
    have hend : endsNL (c :: cs) = true := h2 (by simp)
    have hlw : leadsWith tag ((c :: cs) ++ y) = leadsWith tag (c :: cs) :=
      leadsWith_append_of_ends_nl tag (c :: cs) y hnl hend
    have hx1 : cs = [] → (c == nlc) = true := by
      intro h
      subst h
      simpa [endsNL] using hend
    have hx2 : cs ≠ [] → endsNL cs = true := by
      intro h
      rw [← endsNL_cons c cs h]
      exact hend
    show ((st && leadsWith tag (c :: (cs ++ y))) || hasLineFrom tag (c == nlc) (cs ++ y)) = _
    rw [show (c :: (cs ++ y)) = (c :: cs) ++ y from rfl, hlw,
      hasLineFrom_append tag hnl hne cs y (c == nlc) hx1 hx2,
      show hasLineFrom tag st (c :: cs) =
        ((st && leadsWith tag (c :: cs)) || hasLineFrom tag (c == nlc) cs) from rfl,
      Bool.or_assoc]


/-! ### Backslash collapsing and re-escaping -/

theorem mem_collapseBS : ∀ (s : List Char), bsc ∈ s → bsc ∈ collapseBS s
  | [], h => absurd h (List.not_mem_nil _)
  | [c], h => by
    rw [collapseBS]
    exact h
  | c1 :: c2 :: rest, h => by
    by_cases hb : c1 = bsc ∧ c2 = bsc
    · rw [collapseBS, if_pos hb]
      exact List.mem_cons_self _ _
    · rw [collapseBS, if_neg hb]
      cases List.mem_cons.mp h with
      | inl he => rw [← he]; exact List.mem_cons_self _ _
      | inr hm => exact List.mem_cons_of_mem _ (mem_collapseBS (c2 :: rest) hm)

theorem collapseBS_id_of_no_bs : ∀ (s : List Char), bsc ∉ s → collapseBS s = s
  | [], _ => rfl
  | [c], _ => rfl
  | c1 :: c2 :: rest, h => by
    have h1 : ¬ (c1 = bsc ∧ c2 = bsc) := by
      rintro ⟨e, _⟩
      exact h (by rw [← e]; exact List.mem_cons_self _ _)
    rw [collapseBS, if_neg h1,
      collapseBS_id_of_no_bs (c2 :: rest) (fun hm => h (List.mem_cons_of_mem _ hm))]

theorem escList_of_plain : ∀ (s : List Char), (∀ c ∈ s, escChar c = [c]) → escList s = s
  | [], _ => rfl
  | c :: cs, h => by
    rw [escList, h c (List.mem_cons_self _ _),
      escList_of_plain cs (fun d hd => h d (List.mem_cons_of_mem _ hd))]
    rfl

theorem escChar_bsc : escChar bsc = [bsc, bsc] := by
  rw [escChar, if_pos rfl]

theorem escChar_plain (c : Char) (h1 : 32 ≤ c.toNat) (h2 : c.toNat ≤ 126)
    (hq : c ≠ quoteC) (hb : c ≠ bsc) : escChar c = [c] := by
  have hn : c ≠ nlc := by intro e; rw [e] at h1; exact absurd h1 (by decide)
  have ht : c ≠ Char.ofNat 9 := by intro e; rw [e] at h1; exact absurd h1 (by decide)
  have hr : c ≠ Char.ofNat 13 := by intro e; rw [e] at h1; exact absurd h1 (by decide)
  have h0 : c ≠ Char.ofNat 0 := by intro e; rw [e] at h1; exact absurd h1 (by decide)
  rw [escChar, if_neg hb, if_neg hq, if_neg hn, if_neg ht, if_neg hr, if_neg h0,
    if_pos ⟨h1, h2⟩]

theorem escList_dbl : ∀ (s : List Char), bsc ∈ s →
    ∃ u v, escList s = u ++ chars "\\\\" ++ v
  | [], h => absurd h (List.not_mem_nil _)
  | c :: cs, h => by
    by_cases hc : c = bsc
    · refine ⟨[], escList cs, ?_⟩
      rw [escList, hc, escChar_bsc, show chars "\\\\" = [bsc, bsc] from by decide]
      rfl
    · have hm : bsc ∈ cs := by
        cases List.mem_cons.mp h with
        | inl he => exact absurd he.symm hc
        | inr hm => exact hm
      obtain ⟨u, v, hE⟩ := escList_dbl cs hm
      refine ⟨escChar c ++ u, v, ?_⟩
      rw [escList, hE]
      simp [List.append_assoc]

/-! ### Reserved-identifier helper -/

theorem lastIdCandidate_none : ∀ (fs : List FieldVisit),
    (∀ f ∈ fs, lowerStr (visitName f) ≠ chars "id") → lastIdCandidate fs = none
  | [], _ => rfl
  | f :: fs, h => by
    have h1 : idCandidate f = none := by
      cases f with
      | u64f n v =>
        have hn := h _ (List.mem_cons_self _ _)
        rw [visitName] at hn
        rw [idCandidate, if_neg (fun hc => hn hc.1)]
      | i64f n v =>
        have hn := h _ (List.mem_cons_self _ _)
        rw [visitName] at hn
        rw [idCandidate, if_neg (fun hc => hn hc.1)]
      | u128f n v => rfl
      | i128f n v => rfl
      | boolf n v => rfl
      | strf n v => rfl
      | dbgf n r => rfl
    rw [lastIdCandidate,
      lastIdCandidate_none fs (fun g hg => h g (List.mem_cons_of_mem _ hg)), h1]
    rfl


/-! ### Claim theorems -/

/-- Claim C1, counterexample: for an event under the active span chain
root → mid → leaf (leaf current) the rendered message is exactly
`source: root / mid` — the current (leaf) span's name is dropped by the
`parent()` walk — so it does not contain `root / mid / leaf` as the claim
states. -/
theorem c1_ancestry_counterexample :
    logMsg (onEvent none Level.info [] c1Chain) = chars "source: root / mid\n" ∧
    containsSeq (chars "root / mid / leaf")
      (logMsg (onEvent none Level.info [] c1Chain)) = false := by
  exact ⟨by decide, by decide⟩

/-- Claim C1, amended: for every event emitted while the active span ancestry
chain is root → mid → leaf (leaf current), the message contains the ancestry
line `source: root / mid` — the ancestor names in outermost-to-innermost
order, the current (leaf) span's name excluded, never reversed. -/
theorem c1_ancestry_amended (dflt : Option Nat) (lvl : Level) (fs : List FieldVisit) :
    computeParents c1Chain = some (chars "root / mid") ∧
    containsSeq (chars "source: root / mid\n")
      (logMsg (onEvent dflt lvl fs c1Chain)) = true := by
  refine ⟨by decide, ?_⟩
  apply (containsSeq_iff _ _).mpr
  refine ⟨msgBlock (runVisitor (initVisitor dflt lvl) fs).message,
    fieldLines (runVisitor (initVisitor dflt lvl) fs).fields, ?_⟩
  have hp : parentsBlock (computeParents c1Chain) = chars "source: root / mid\n" := by
    decide
  show msgBlock (runVisitor (initVisitor dflt lvl) fs).message ++
      parentsBlock (computeParents c1Chain) ++
      fieldLines (runVisitor (initVisitor dflt lvl) fs).fields = _
  rw [hp]

/-- Claim C2, counterexample: the extra field `k` holding the three-character
string value `a\b` is stored debug-rendered as `"a\\b"` (which contains a
literal two-backslash sequence), but the final message does NOT contain the
stored text with that sequence collapsed to a single backslash: line 156
re-debug-formats the collapsed string, re-escaping every backslash, and the
message still contains a two-backslash sequence. -/
theorem c2_backslash_counterexample :
    lookupKV (onEvent none Level.info
        [FieldVisit.strf (chars "k") (chars "a\\b")] none).fields (chars "k")
      = some (strDebug (chars "a\\b")) ∧
    containsSeq (chars "\\\\") (strDebug (chars "a\\b")) = true ∧
    containsSeq (collapseBS (strDebug (chars "a\\b")))
      (logMsg (onEvent none Level.info
        [FieldVisit.strf (chars "k") (chars "a\\b")] none)) = false ∧
    containsSeq (chars "\\\\")
      (logMsg (onEvent none Level.info
        [FieldVisit.strf (chars "k") (chars "a\\b")] none)) = true := by
  exact ⟨by decide, by decide, by decide, by decide⟩

/-- Claim C2, amended: the `replace` collapse is performed, but the line then
debug-formats the collapsed value again, re-escaping each backslash and
wrapping it in quotes.  Hence (1) a stored text containing a two-backslash
sequence still yields a line containing a two-backslash sequence (not a
single backslash in its place), and (2) a stored text consisting of
printable ASCII characters other than quote and backslash — exactly the
characters `escape_debug` passes through unchanged — appears in its line
unchanged, inside the added quotes. -/
theorem c2_backslash_amended (n s : List Char) :
    (containsSeq (chars "\\\\") s = true →
      containsSeq (chars "\\\\") (fieldLine n s) = true) ∧
    ((∀ c ∈ s, 32 ≤ c.toNat ∧ c.toNat ≤ 126 ∧ c ≠ quoteC ∧ c ≠ bsc) →
      fieldLine n s = n ++ chars ": " ++ (quoteC :: (s ++ [quoteC, nlc]))) := by
  constructor
  · intro h
    obtain ⟨u, v1, hs⟩ := (containsSeq_iff _ _).mp h
    have hmem : bsc ∈ s := by
      rw [hs]
      have hd : bsc ∈ chars "\\\\" := by decide
      exact List.mem_append.mpr (Or.inl (List.mem_append.mpr (Or.inr hd)))
    obtain ⟨u2, v2, hE⟩ := escList_dbl (collapseBS s) (mem_collapseBS s hmem)
    apply (containsSeq_iff _ _).mpr
    refine ⟨n ++ chars ": " ++ (quoteC :: u2), v2 ++ [quoteC, nlc], ?_⟩
    rw [fieldLine, strDebug, hE]
    simp [List.append_assoc]
  · intro hplain
    have hesc : ∀ c ∈ s, escChar c = [c] := fun c hc =>
      escChar_plain c (hplain c hc).1 (hplain c hc).2.1
        (hplain c hc).2.2.1 (hplain c hc).2.2.2
    have hnb : bsc ∉ s := fun hm => (hplain bsc hm).2.2.2 rfl
    rw [fieldLine, collapseBS_id_of_no_bs s hnb, strDebug, escList_of_plain s hesc]
    simp

/-- Claim C2, witness: both parts of the amended theorem applied at concrete
inputs. -/
theorem c2_backslash_witness :
    containsSeq (chars "\\\\") (fieldLine (chars "k") (chars "a\\\\b")) = true ∧
    fieldLine (chars "p") (chars "8080")
      = chars "p" ++ chars ": " ++ (quoteC :: (chars "8080" ++ [quoteC, nlc])) :=
  ⟨(c2_backslash_amended (chars "k") (chars "a\\\\b")).1 (by decide),
   (c2_backslash_amended (chars "p") (chars "8080")).2 (by decide)⟩

/-- Claim C3, counterexample: in the scenario (level info, fields
`{message: "started", id: 42, port: 8080}`, no span context) the message
does not contain a line `port: 8080`: line 156 debug-formats the stored
text, so the actual line is `port: "8080"`. -/
theorem c3_scenario_counterexample :
    containsSeq (chars "port: 8080")
      (logMsg (onEvent none Level.info c3Fields none)) = false := by
  decide

/-- Claim C3, amended: for the scenario event the resolved identifier is 42,
the native category is informational, the message contains "started" and no
`source:` line, and the port field is rendered as the line `port: "8080"`
(the stored text debug-quoted at emission) rather than `port: 8080`. -/
theorem c3_scenario_amended :
    resolveId (onEvent none Level.info c3Fields none) = 42 ∧
    eventType Level.info = EVENTLOG_INFORMATION_TYPE ∧
    containsSeq (chars "started") (logMsg (onEvent none Level.info c3Fields none)) = true ∧
    hasLineStart srcTag (logMsg (onEvent none Level.info c3Fields none)) = false ∧
    containsSeq (chars "port: \"8080\"\n")
      (logMsg (onEvent none Level.info c3Fields none)) = true := by
  exact ⟨by decide, rfl, by decide, by decide, by decide⟩

/-- Claim C4: for every event carrying a reserved identifier field (name
case-insensitively "id", 64-bit integer value within `[0, u32::MAX]`) — its
value, for repeated such fields, being that of the last one visited — the
resolved identifier equals that value exactly, regardless of the configured
default, the level, and the span context. -/
theorem c4_id_override (dflt : Option Nat) (lvl : Level)
    (chain : Option (List Char × List (List Char))) (fs : List FieldVisit) (v : Nat)
    (h : lastIdCandidate fs = some v) :
    resolveId (onEvent dflt lvl fs chain) = v := by
  show ((runVisitor (initVisitor dflt lvl) fs).id.getD
    ((runVisitor (initVisitor dflt lvl) fs).default_id.getD 0)) = v
  rw [runVisitor_id, runVisitor_default,
    show (initVisitor dflt lvl).id = none from rfl, optOr_none, h]
  rfl

/-- Claim C4, witness. -/
theorem c4_id_override_witness :
    resolveId (onEvent (some 99) Level.info [FieldVisit.u64f (chars "Id") 7] none) = 7 :=
  c4_id_override (some 99) Level.info none [FieldVisit.u64f (chars "Id") 7] 7 (by decide)

/-- Claim C5: for every event carrying no reserved identifier field, the
resolved identifier is the configured default when one is configured and the
fixed fallback 0 otherwise (`default_id.unwrap_or_default()`). -/
theorem c5_default_id (dflt : Option Nat) (lvl : Level)
    (chain : Option (List Char × List (List Char))) (fs : List FieldVisit)
    (h : ∀ f ∈ fs, lowerStr (visitName f) ≠ chars "id") :
    resolveId (onEvent dflt lvl fs chain) = dflt.getD 0 := by
  show ((runVisitor (initVisitor dflt lvl) fs).id.getD
    ((runVisitor (initVisitor dflt lvl) fs).default_id.getD 0)) = dflt.getD 0
  rw [runVisitor_id, runVisitor_default, lastIdCandidate_none fs h]
  rfl

/-- Claim C5, witness. -/
theorem c5_default_id_witness :
    resolveId (onEvent (some 99) Level.warn
      [FieldVisit.strf (chars "k") (chars "x")] none) = 99 :=
  c5_default_id (some 99) Level.warn none
    [FieldVisit.strf (chars "k") (chars "x")] (by decide)

/-- Claim C6: a reserved-name identifier field whose integer value lies
outside the unsigned 32-bit range (a u64 above `u32::MAX`, or a negative
i64) does not set the identifier: the visitation falls through to
`record_debug`, the resolution falls back to the default policy, and the
field lands in the extras map under its name. -/
theorem c6_out_of_range_id (dflt : Option Nat) (lvl : Level)
    (chain : Option (List Char × List (List Char))) (n : List Char)
    (hn : lowerStr n = chars "id") :
    (∀ v : Nat, u32MAX < v →
      record_u64 (initVisitor dflt lvl) n v
        = record_debug (initVisitor dflt lvl) n (natDebug v) ∧
      resolveId (onEvent dflt lvl [FieldVisit.u64f n v] chain) = dflt.getD 0 ∧
      lookupKV (onEvent dflt lvl [FieldVisit.u64f n v] chain).fields n
        = some (natDebug v)) ∧
    (∀ z : Int, z < 0 →
      record_i64 (initVisitor dflt lvl) n z
        = record_debug (initVisitor dflt lvl) n (intDebug z) ∧
      resolveId (onEvent dflt lvl [FieldVisit.i64f n z] chain) = dflt.getD 0 ∧
      lookupKV (onEvent dflt lvl [FieldVisit.i64f n z] chain).fields n
        = some (intDebug z)) := by
  constructor
  · intro v hv
    have hguard : ¬ (lowerStr n = chars "id" ∧ v ≤ u32MAX) :=
      fun hc => absurd hc.2 (Nat.not_le.mpr hv)
    have h1 : record_u64 (initVisitor dflt lvl) n v
        = record_debug (initVisitor dflt lvl) n (natDebug v) := by
      rw [record_u64, if_neg hguard]
    have hcand : idCandidate (FieldVisit.u64f n v) = none := by
      rw [idCandidate, if_neg hguard]
    refine ⟨h1, ?_, ?_⟩
    · show ((runVisitor (initVisitor dflt lvl) [FieldVisit.u64f n v]).id.getD
        ((runVisitor (initVisitor dflt lvl) [FieldVisit.u64f n v]).default_id.getD 0))
          = dflt.getD 0
      rw [runVisitor_id, runVisitor_default,
        show lastIdCandidate [FieldVisit.u64f n v]
          = idCandidate (FieldVisit.u64f n v) from rfl, hcand]
      rfl
    · show lookupKV (record_u64 (initVisitor dflt lvl) n v).fields n = some (natDebug v)
      rw [h1, record_debug, if_neg (ne_message_of_id n hn)]
      exact lookupKV_insert_self _ _ _
  · intro z hz
    have hguard : ¬ (lowerStr n = chars "id" ∧ 0 ≤ z ∧ z ≤ (u32MAX : Int)) :=
      fun hc => absurd hc.2.1 (Int.not_le.mpr hz)
    have h1 : record_i64 (initVisitor dflt lvl) n z
        = record_debug (initVisitor dflt lvl) n (intDebug z) := by
      rw [record_i64, if_neg hguard]
    have hcand : idCandidate (FieldVisit.i64f n z) = none := by
      rw [idCandidate, if_neg hguard]
    refine ⟨h1, ?_, ?_⟩
    · show ((runVisitor (initVisitor dflt lvl) [FieldVisit.i64f n z]).id.getD
        ((runVisitor (initVisitor dflt lvl) [FieldVisit.i64f n z]).default_id.getD 0))
          = dflt.getD 0
      rw [runVisitor_id, runVisitor_default,
        show lastIdCandidate [FieldVisit.i64f n z]
          = idCandidate (FieldVisit.i64f n z) from rfl, hcand]
      rfl
    · show lookupKV (record_i64 (initVisitor dflt lvl) n z).fields n = some (intDebug z)
      rw [h1, record_debug, if_neg (ne_message_of_id n hn)]
      exact lookupKV_insert_self _ _ _

/-- Claim C6, witness: a u64 value one above `u32::MAX` and a negative i64. -/
theorem c6_out_of_range_id_witness :
    resolveId (onEvent (some 5) Level.info
      [FieldVisit.u64f (chars "id") 4294967296] none) = 5 ∧
    resolveId (onEvent none Level.info
      [FieldVisit.i64f (chars "id") (-1)] none) = 0 :=
  ⟨((c6_out_of_range_id (some 5) Level.info none (chars "id") (by decide)).1
      4294967296 (by decide)).2.1,
   ((c6_out_of_range_id none Level.info none (chars "id") (by decide)).2
      (-1) (by decide)).2.1⟩

/-- Claim C7, counterexample: an event with NO active span context whose own
primary message text is `source: hi` produces a rendered message containing
a line starting with `source:` — so the claim's first half is not universal
over events. -/
theorem c7_no_source_counterexample :
    hasLineStart srcTag
      (logMsg (onEvent none Level.info
        [FieldVisit.dbgf (chars "message") (chars "source: hi")] none)) = true := by
  decide

/-- Claim C7, amended: with no active span context the renderer emits no
ancestry block, so the rendered message has no `source:` line provided the
primary-message block and the extra-field lines themselves contain none; and
a current span with zero parents yields an ancestry trail equal to that
span's own name. -/
theorem c7_no_source_amended (v : EventVisitor) (leaf : List Char) :
    (v.parents = none →
      hasLineStart srcTag (msgBlock v.message) = false →
      hasLineStart srcTag (fieldLines v.fields) = false →
      hasLineStart srcTag (logMsg v) = false) ∧
    computeParents (some (leaf, [])) = some leaf := by
  constructor
  · intro hp hm hf
    rw [hasLineStart, logMsg, hp, show parentsBlock none = ([] : List Char) from rfl,
      List.append_nil,
      hasLineFrom_append srcTag (by decide) (by decide) (msgBlock v.message)
        (fieldLines v.fields) true (fun _ => rfl) (msgBlock_endsNL v.message)]
    rw [hasLineStart] at hm hf
    rw [hm, hf]
    rfl
  · rfl

/-- Claim C7, witness: a concrete span-free event with an ordinary message. -/
theorem c7_no_source_witness :
    hasLineStart srcTag
      (logMsg (onEvent none Level.info
        [FieldVisit.dbgf (chars "message") (chars "hello")] none)) = false :=
  (c7_no_source_amended
    (onEvent none Level.info [FieldVisit.dbgf (chars "message") (chars "hello")] none)
    (chars "x")).1 rfl (by decide) (by decide)

/-- Claim C8: after any sequence of field visitations on a fresh visitor, no
entry of the extra-fields map is keyed "message", and the primary message
slot holds the rendering of the last field named exactly "message" (if
any), later ones overwriting earlier ones. -/
theorem c8_message_field (dflt : Option Nat) (lvl : Level) (fs : List FieldVisit) :
    lookupKV (runVisitor (initVisitor dflt lvl) fs).fields (chars "message") = none ∧
    (runVisitor (initVisitor dflt lvl) fs).message = lastMessageRender fs := by
  constructor
  · rw [runVisitor_lookup_msg]
    rfl
  · rw [runVisitor_message]
    exact optOr_none _

/-- Claim C9: `write_to_event_log` never raises to its caller for any input
and any native outcome: the result is always `ok`; a failed native write
yields the stderr diagnostic line and a normal return, a successful one
yields no diagnostics. -/
theorem c9_write_no_raise (report : Nat → Nat → List Char → Except WinError Unit)
    (event_id : Nat) (level : Level) (message : List Char) :
    (∃ lines, write_to_event_log report event_id level message = Except.ok lines) ∧
    (∀ e, report (eventType level) event_id message = Except.error e →
      write_to_event_log report event_id level message = Except.ok [failLine e]) ∧
    (report (eventType level) event_id message = Except.ok () →
      write_to_event_log report event_id level message = Except.ok []) := by
  refine ⟨?_, ?_, ?_⟩
  · cases h : report (eventType level) event_id message with
    | ok u => exact ⟨[], by rw [write_to_event_log, h]⟩
    | error e => exact ⟨[failLine e], by rw [write_to_event_log, h]⟩
  · intro e he
    rw [write_to_event_log, he]
  · intro hok
    rw [write_to_event_log, hok]

/-- Claim C9, witness: a concretely failing native call is reported on
stderr and returns normally. -/
theorem c9_write_no_raise_witness :
    write_to_event_log (fun _ _ _ => Except.error { code := 5 }) 7 Level.warn
      (chars "boom") = Except.ok [failLine { code := 5 }] :=
  (c9_write_no_raise (fun _ _ _ => Except.error { code := 5 }) 7 Level.warn
    (chars "boom")).2.1 { code := 5 } rfl

/-- Claim C10: an id-named field delivered through the 128-bit integer paths
never sets the identifier — even for values within the 32-bit range — and is
debug-rendered into the extras map instead; among all visitation paths only
the two 64-bit integer ones can change the identifier slot. -/
theorem c10_id_128bit (st : EventVisitor) (n : List Char) (v : Nat) (z : Int)
    (hn : lowerStr n = chars "id") :
    record_u128 st n v = record_debug st n (natDebug v) ∧
    (record_u128 st n v).id = st.id ∧
    lookupKV (record_u128 st n v).fields n = some (natDebug v) ∧
    record_i128 st n z = record_debug st n (intDebug z) ∧
    (record_i128 st n z).id = st.id ∧
    (∀ f : FieldVisit, (applyVisit st f).id ≠ st.id →
      (∃ m w, f = FieldVisit.u64f m w) ∨ (∃ m w, f = FieldVisit.i64f m w)) := by
  refine ⟨rfl, record_debug_id _ _ _, ?_, rfl, record_debug_id _ _ _, ?_⟩
  · show lookupKV (record_debug st n (natDebug v)).fields n = _
    rw [record_debug, if_neg (ne_message_of_id n hn)]
    exact lookupKV_insert_self _ _ _
  · intro f hf
    cases f with
    | u64f m w => exact Or.inl ⟨m, w, rfl⟩
    | i64f m w => exact Or.inr ⟨m, w, rfl⟩
    | u128f m w => exact absurd (record_debug_id st m (natDebug w)) hf
    | i128f m w => exact absurd (record_debug_id st m (intDebug w)) hf
    | boolf m w => exact absurd (record_debug_id st m (boolDebug w)) hf
    | strf m w => exact absurd (record_debug_id st m (strDebug w)) hf
    | dbgf m r => exact absurd (record_debug_id st m r) hf

/-- Claim C10, witness: a 128-bit id field with the in-range value 7 leaves
the identifier slot untouched. -/
theorem c10_id_128bit_witness :
    (record_u128 (initVisitor none Level.info) (chars "id") 7).id
      = (initVisitor none Level.info).id :=
  (c10_id_128bit (initVisitor none Level.info) (chars "id") 7 (-3) (by decide)).2.1

end Evlog
